import Mathlib

/-!
Verification of the worse-preact virtual-DOM engine against its
natural-language specification.

The definitions below are a shallow embedding of the engine's source:
  - scheduler.js        (render queue, batching)
  - context.js          (createContext, findProvider, subscribe, notify, cleanup)
  - hooks.js            (useContext, useEffect, argsChanged, effect pipeline,
                         runCleanups)
  - props.js            (setProperty, setEventHandler)
  - vnode.js            (createVNode)
  - children.js         (normalizeChildren, child matching)
  - render.js           (render entry)

JavaScript objects that matter only by identity (callbacks, components,
DOM nodes) are represented by natural-number ids.  JavaScript values that
are compared with Object.is are represented by the inductive `JSVal`,
on which Object.is coincides with structural equality (NaN is equal to
itself, +0 and -0 are distinct constructors).
-/

namespace WorsePreact

/-! ## JavaScript values and Object.is -/

/-- A model of the JavaScript values the engine compares with Object.is:
primitives, NaN and -0 as distinct constructors, and reference types
identified by an id. -/
inductive JSVal where
  | undef : JSVal
  | jsNull : JSVal
  | nan : JSVal
  | negZero : JSVal
  | num : Int → JSVal
  | str : String → JSVal
  | jsBool : Bool → JSVal
  | obj : Nat → JSVal
deriving DecidableEq, Repr

/-- `Object.is`: same-value equality.  On the `JSVal` model this is
structural equality (NaN equals NaN; +0, modelled as `num 0`, differs
from `negZero`). -/
def ObjectIs (a b : JSVal) : Bool := a = b

/-! ## Scheduler (scheduler.js)

State of the module-level scheduler: the `renderQueue` of component ids
awaiting re-render and the `scheduled` flag.  `drainsQueued` counts the
calls to `queueMicrotask(processRenderQueue)` the source makes, so that
"a single microtask is scheduled" is statable. -/

structure SchedState where
  renderQueue : List Nat
  scheduled : Bool
  drainsQueued : Nat
deriving DecidableEq, Repr

/-- The scheduler state before any update: empty queue, nothing scheduled. -/
def idleSched : SchedState := { renderQueue := [], scheduled := false, drainsQueued := 0 }

/-- `enqueueRender(component)` from scheduler.js: no-op if the component
is already queued; otherwise push it and, if no drain microtask is
scheduled yet, schedule one. -/
def enqueueRender (c : Nat) (s : SchedState) : SchedState :=
  if s.renderQueue.contains c then s
  else
    { renderQueue := s.renderQueue ++ [c],
      scheduled := true,
      drainsQueued := if s.scheduled then s.drainsQueued else s.drainsQueued + 1 }

/-- Stable insertion used to model `Array.prototype.sort` (which the
JavaScript specification requires to be stable; ties keep insertion
order). -/
def sortInsert (le : Nat → Nat → Bool) (x : Nat) : List Nat → List Nat
  | [] => [x]
  | y :: ys => if le y x then y :: sortInsert le x ys else x :: y :: ys

/-- Stable sort by a boolean "less or equal" comparator. -/
def stableSort (le : Nat → Nat → Bool) (l : List Nat) : List Nat :=
  l.foldr (sortInsert le) []

/-- The sort key used by `processRenderQueue`:
`a._vnode ? a._vnode._depth : 0`.  `depth c = none` models a component
whose `_vnode` is null (unmounted). -/
def depthKey (depth : Nat → Option Nat) (c : Nat) : Nat :=
  (depth c).getD 0

/-- `processRenderQueue()` from scheduler.js: reset the `scheduled`
flag, sort the queue by vnode depth (parents first), then shift and
render each component, skipping any whose `_vnode` is null.  Returns
the new scheduler state and the list of components actually rendered,
in order. -/
def processRenderQueue (depth : Nat → Option Nat) (s : SchedState) : SchedState × List Nat :=
  let sorted := stableSort (fun a b => depthKey depth a ≤ depthKey depth b) s.renderQueue
  let rendered := sorted.filter (fun c => (depth c).isSome)
  ({ renderQueue := [], scheduled := false, drainsQueued := s.drainsQueued - 1 }, rendered)

/-! ## Context system (context.js) -/

/-- The shapes a vnode `type` can take, as dispatched on by the diff
engine and by `findProvider`: an intrinsic tag name, the text sentinel
(type null in the source, represented here as its own constructor at
use sites that need it), a plain function component, a context Provider
function (carrying `_isContextProvider` and `_contextId`), or the
Fragment function. -/
inductive VType where
  | tag : String → VType
  | component : Nat → VType
  | provider : Nat → VType
  | fragment : VType
deriving DecidableEq, Repr

/-- The test `current.type && current.type._isContextProvider ===
CONTEXT_PROVIDER && current.type._contextId === context._id` from
`findProvider` in context.js. -/
def isContextProviderFor (ctxId : Nat) (t : VType) : Bool :=
  match t with
  | .provider i => i = ctxId
  | _ => false

/-- An entry of a vnode's `_parent` chain as consulted by `findProvider`:
its id, its `type`, and its `_contextValue` slot. -/
structure AncVNode where
  id : Nat
  vtype : VType
  contextValue : JSVal
deriving DecidableEq, Repr

/-- `findProvider(context, startVNode)` from context.js: walk the
`_parent` chain (given here as the list of ancestors, nearest first)
and return the first Provider vnode for the context, or null. -/
def findProvider (ctxId : Nat) : List AncVNode → Option AncVNode
  | [] => none
  | v :: rest =>
    if isContextProviderFor ctxId v.vtype then some v else findProvider ctxId rest

/-- Adding to a JavaScript `Set`: a no-op when present, append otherwise
(`Set` iterates in insertion order). -/
def setAdd (x : Nat) (s : List Nat) : List Nat :=
  if x ∈ s then s else s ++ [x]

/-- The two subscription tables of the context system: each provider
vnode's `_contextSubscriptions` set of components, and each component's
`_contextSubscriptions` set of provider vnodes. -/
structure SubState where
  providerSubs : Nat → List Nat
  componentSubs : Nat → List Nat

/-- `subscribeToProvider(providerVNode, component)` from context.js:
add the component to the provider's subscription set and the provider
to the component's subscription set. -/
def subscribeToProvider (providerId compId : Nat) (st : SubState) : SubState :=
  { providerSubs := fun p =>
      if p = providerId then setAdd compId (st.providerSubs p) else st.providerSubs p,
    componentSubs := fun c =>
      if c = compId then setAdd providerId (st.componentSubs c) else st.componentSubs c }

/-- `notifyContextSubscribers(providerVNode)` from context.js: for each
component in the provider's subscription set (in insertion order), if
its `_vnode` is still alive enqueue it in the scheduler, else delete it
from the set.  Returns the surviving subscription set and the new
scheduler state. -/
def notifyContextSubscribers (alive : Nat → Bool) :
    List Nat → SchedState → List Nat × SchedState
  | [], s => ([], s)
  | c :: rest, s =>
    if alive c then
      let s1 := enqueueRender c s
      let p := notifyContextSubscribers alive rest s1
      (c :: p.1, p.2)
    else
      notifyContextSubscribers alive rest s

/-- Modelled from the spec: the Provider handling inside `diffComponent`
is missing from the source snapshot (context.js's own comment says
"Value storage and change detection happens in diff.js", and the tests
exercise it, but the `diffComponent` in src never mentions it).  Per the
spec, a re-diff of a Provider vnode stores `props.value` as the vnode's
`_contextValue`. -/
def diffProviderStoreValue (v : AncVNode) (propsValue : JSVal) : AncVNode :=
  { v with contextValue := propsValue }

/-- Modelled from the spec: the other half of the missing Provider glue.
Per the spec, the engine compares the new `props.value` with the stored
one using Object.is and, if they differ, calls
`notifyContextSubscribers` after the diff completes; on equal values it
does nothing. -/
def diffProviderNotify (oldValue newValue : JSVal) (alive : Nat → Bool)
    (subs : List Nat) (s : SchedState) : List Nat × SchedState :=
  if ObjectIs oldValue newValue then (subs, s)
  else notifyContextSubscribers alive subs s

/-! ## useContext (hooks.js) -/

/-- A context object as produced by `createContext`: its id and its
default value. -/
structure Context where
  id : Nat
  defaultValue : JSVal
deriving DecidableEq, Repr

/-- The observable outcome of a `useContext` call: a thrown error, or a
value together with the id of the Provider subscribed to (if any). -/
inductive UseContextResult where
  | thrown : String → UseContextResult
  | value : JSVal → Option Nat → UseContextResult
deriving DecidableEq, Repr

/-- `useContext(context)` from hooks.js: throw if there is no current
component; return the default value if the component's `_vnode` is
null; otherwise find the nearest Provider along the vnode's `_parent`
chain, subscribe to it and return its `_contextValue`, or return the
default value when none is found. -/
def useContext (ctx : Context) (currentComp : Option Nat)
    (parentChain : Option (List AncVNode)) : UseContextResult :=
  match currentComp with
  | none => .thrown "useContext must be called during render"
  | some _ =>
    match parentChain with
    | none => .value ctx.defaultValue none
    | some chain =>
      match findProvider ctx.id chain with
      | some p => .value p.contextValue (some p.id)
      | none => .value ctx.defaultValue none

/-! ## Hook slots and the effect pipeline (hooks.js) -/

/-- A hook slot as used by `useEffect`: `_value` (the pending effect
callback, by id), `_args` (the accepted dependency list; `none` models
the JavaScript `undefined`, both for "field never set" and for "deps
omitted"), `_pendingArgs`, and `_cleanup` (the cleanup thunk returned
by the last effect run, by id). -/
structure HookState where
  value : Option Nat
  args : Option (List JSVal)
  pendingArgs : Option (List JSVal)
  cleanup : Option Nat
deriving DecidableEq, Repr

/-- The hook slot as `getHookState` first creates it: an empty object. -/
def freshHookState : HookState :=
  { value := none, args := none, pendingArgs := none, cleanup := none }

/-- `argsChanged(oldArgs, newArgs)` from hooks.js: true on first run
(`oldArgs` undefined), true when no deps array is provided, true when
the lengths differ, true when some position differs under Object.is,
false otherwise. -/
def argsChanged (oldArgs newArgs : Option (List JSVal)) : Bool :=
  match oldArgs with
  | none => true
  | some o =>
    match newArgs with
    | none => true
    | some n =>
      if o.length ≠ n.length then true
      else (o.zip n).any (fun p => ¬ ObjectIs p.1 p.2)

/-- Events observable from the effect pipeline: an effect callback
invocation, a cleanup thunk invocation, and the removal of the
component's context subscriptions. -/
inductive EffEvent where
  | effectRun : Nat → EffEvent
  | cleanupRun : Nat → EffEvent
  | removeContextSubscriptions : EffEvent
deriving DecidableEq, Repr

/-- The component-level state `useEffect` and `runPendingEffects`
operate on, for a component with a single effect hook slot:
the slot itself and `__hooks._pendingEffects`.  The source pushes a
reference to the (single) slot, so the pending list is represented by
how many references to that slot it holds. -/
structure EffectHooks where
  hs : HookState
  pendingCount : Nat
deriving DecidableEq, Repr

/-- `useEffect(callback, deps)` from hooks.js, for the component's
single effect slot: if `argsChanged(hookState._args, deps)`, store the
callback in `_value`, store deps in `_pendingArgs`, and push the slot
onto `_pendingEffects`. -/
def useEffect (callback : Nat) (deps : Option (List JSVal)) (h : EffectHooks) : EffectHooks :=
  if argsChanged h.hs.args deps then
    { hs := { h.hs with value := some callback, pendingArgs := deps },
      pendingCount := h.pendingCount + 1 }
  else h

/-- One iteration of the `forEach` in `runPendingEffects`: run the
previous cleanup if present, run the effect callback (its returned
cleanup, if any, is given by `cleanupOf`), store the new cleanup, and
move `_pendingArgs` into `_args`. -/
def flushSlotOnce (cleanupOf : Nat → Option Nat) (hs : HookState) : HookState × List EffEvent :=
  let cleanupEvents := match hs.cleanup with
    | some c => [EffEvent.cleanupRun c]
    | none => []
  match hs.value with
  | some e =>
    ({ hs with cleanup := cleanupOf e, args := hs.pendingArgs },
      cleanupEvents ++ [EffEvent.effectRun e])
  | none => ({ hs with cleanup := none, args := hs.pendingArgs }, cleanupEvents)

/-- The `forEach` of `runPendingEffects` over `n` queued references to
the same slot (aliasing: each iteration sees the mutations of the
previous one). -/
def flushSlotTimes (cleanupOf : Nat → Option Nat) : Nat → HookState → HookState × List EffEvent
  | 0, hs => (hs, [])
  | n + 1, hs =>
    let p := flushSlotOnce cleanupOf hs
    let q := flushSlotTimes cleanupOf n p.1
    (q.1, p.2 ++ q.2)

/-- `runPendingEffects(component)` from hooks.js for the single-slot
component: run each queued reference in order, then clear
`_pendingEffects`. -/
def runPendingEffectsModel (cleanupOf : Nat → Option Nat) (h : EffectHooks) :
    EffectHooks × List EffEvent :=
  let p := flushSlotTimes cleanupOf h.pendingCount h.hs
  ({ hs := p.1, pendingCount := 0 }, p.2)

/-! ## Unmount cleanups (hooks.js runCleanups) and the commit order -/

/-- A hook slot as seen by the multi-slot commit pipeline: the effect
callback stored in `_value` and the cleanup stored in `_cleanup`
(thunks by id). -/
structure Slot where
  value : Option Nat
  cleanup : Option Nat
deriving DecidableEq, Repr

/-- The multi-slot hook store of one component: `__hooks._list` and
`__hooks._pendingEffects` (the latter holding slot indices, in the
order `useEffect` pushed them, which is hook call order). -/
structure CompHooks where
  list : List Slot
  pendingEffects : List Nat
deriving DecidableEq, Repr

/-- One iteration of the `forEach` in `runPendingEffects`, at slot
index `i` of the component's hook list: run the previous cleanup, run
the effect, store the effect's cleanup. -/
def commitSlot (cleanupOf : Nat → Option Nat) (slots : List Slot) (i : Nat) :
    List Slot × List EffEvent :=
  match slots.get? i with
  | none => (slots, [])
  | some s =>
    let cleanupEvents := match s.cleanup with
      | some c => [EffEvent.cleanupRun c]
      | none => []
    match s.value with
    | some e =>
      (slots.set i { s with cleanup := cleanupOf e }, cleanupEvents ++ [EffEvent.effectRun e])
    | none => (slots.set i { s with cleanup := none }, cleanupEvents)

/-- `runPendingEffects` over the component's pending slot indices, in
queue order: commits each pending effect, clears the pending list, and
reports the event sequence. -/
def commitPendingEffects (cleanupOf : Nat → Option Nat) :
    List Nat → List Slot → List Slot × List EffEvent
  | [], slots => (slots, [])
  | i :: rest, slots =>
    let p := commitSlot cleanupOf slots i
    let q := commitPendingEffects cleanupOf rest p.1
    (q.1, p.2 ++ q.2)

/-- `runCleanups(component)` from hooks.js: for each hook slot of
`__hooks._list`, in list order, invoke its cleanup if non-null; then
call `cleanupContextSubscriptions`. -/
def runCleanups (slots : List Slot) : List EffEvent :=
  (slots.filterMap (fun s => s.cleanup)).map EffEvent.cleanupRun
    ++ [EffEvent.removeContextSubscriptions]

/-! ## Property writer (props.js) -/

/-- The action `setProperty` takes for one prop name: skipped names
(children, ref, key), the style path, the delegated-event path (with
the derived event name), the innerHTML path, the SVG attribute path, or
the HTML property/attribute path (with the translated name). -/
inductive PropAction where
  | skip : PropAction
  | styleUpdate : PropAction
  | eventUpdate : String → PropAction
  | innerHTMLUpdate : PropAction
  | svgAttr : String → PropAction
  | htmlPropOrAttr : String → PropAction
deriving DecidableEq, Repr

/-- The event-name derivation inside `setEventHandler`:
`name.slice(2).toLowerCase()`. -/
def delegatedEventName (name : String) : String :=
  (name.drop 2).toLower

/-- The `className -> class`, `htmlFor -> for` translation shared by
`setAttributeSVG` and `setPropertyOrAttribute`. -/
def domAttrName (name : String) : String :=
  if name = "className" then "class"
  else if name = "htmlFor" then "for"
  else name

/-- `setProperty(dom, name, value, oldValue, namespace)` from props.js,
as the dispatch on the prop name: `children` is skipped; `style` goes
to the style path; a name whose first two characters are `o` and `n`
goes to `setEventHandler`; then `dangerouslySetInnerHTML`, `ref`,
`key`; anything else goes to the SVG attribute setter or the HTML
property/attribute setter depending on the namespace. -/
def setProperty (name : String) (svgNamespace : Bool) : PropAction :=
  if name = "children" then .skip
  else if name = "style" then .styleUpdate
  else if name.data.get? 0 = some 'o' ∧ name.data.get? 1 = some 'n' then
    .eventUpdate (delegatedEventName name)
  else if name = "dangerouslySetInnerHTML" then .innerHTMLUpdate
  else if name = "ref" then .skip
  else if name = "key" then .skip
  else if svgNamespace then .svgAttr (domAttrName name)
  else .htmlPropOrAttr (domAttrName name)

/-- The spec's classifier, stated from its words: a prop name is an
event listener when it begins with `on` followed by an uppercase
letter.  (Second definition for the refinement comparison; `setProperty`
above is the one translated from the source.) -/
def specIsEventListenerName (name : String) : Bool :=
  decide (name.data.get? 0 = some 'o') && decide (name.data.get? 1 = some 'n') &&
    match name.data.get? 2 with
    | some ch => ch.isUpper
    | none => false

/-! ## VNode records and the factory (vnode.js) -/

/-- A vnode record as built by `createVNode` in vnode.js: `type`
(`none` models the text sentinel `null`), `props` (opaque object or the
text payload), `key`, `ref`, and the reconciliation slots `_children`,
`_dom`, `_component`, `_parent`, `_depth`, `_flags`. -/
structure VNodeRec where
  vtype : Option VType
  props : JSVal
  key : Option JSVal
  ref : Option Nat
  childrenSlot : Option (List Nat)
  domSlot : Option Nat
  componentSlot : Option Nat
  parentSlot : Option Nat
  depthSlot : Nat
  flagsSlot : Nat
deriving DecidableEq, Repr

/-- The heap of vnode objects: a vnode reference is an index into this
list, and allocation appends. -/
abbrev Store := List VNodeRec

/-- `createVNode(type, props, key, ref)` from vnode.js: a fresh record
with empty reconciliation slots. -/
def createVNode (t : Option VType) (props : JSVal) (key : Option JSVal)
    (ref : Option Nat) : VNodeRec :=
  { vtype := t, props := props, key := key, ref := ref,
    childrenSlot := none, domSlot := none, componentSlot := none,
    parentSlot := none, depthSlot := 0, flagsSlot := 0 }

/-- Allocate a vnode object on the store, returning its reference. -/
def alloc (r : VNodeRec) (st : Store) : Store × Nat := (st ++ [r], st.length)

/-- A raw child value as `normalizeChildren` in children.js receives
it: null, undefined, a boolean, a string, a number, a nested array, a
vnode object (by reference), or a non-vnode object (whose `type` field
is undefined). -/
inductive RawChild where
  | nullRaw : RawChild
  | undefRaw : RawChild
  | boolRaw : Bool → RawChild
  | strRaw : String → RawChild
  | numRaw : Int → RawChild
  | arrRaw : List RawChild → RawChild
  | nodeRaw : Nat → RawChild
  | junkRaw : RawChild

/-- `normalizeChildren(children, normalized, parentVNode)` from
children.js, over a list of raw children: drop null/undefined/booleans,
splice nested arrays, turn strings and numbers into fresh text vnodes
(`createVNode(null, String(children), null, null)`), and push a fresh
clone `createVNode(children.type, children.props, children.key,
children.ref)` of every vnode object; non-vnode objects are logged and
skipped.  Returns the grown store and the list of pushed references. -/
def normalizeList : List RawChild → Store → Store × List Nat
  | [], st => (st, [])
  | .nullRaw :: cs, st => normalizeList cs st
  | .undefRaw :: cs, st => normalizeList cs st
  | .boolRaw _ :: cs, st => normalizeList cs st
  | .arrRaw xs :: cs, st =>
    let p := normalizeList xs st
    let q := normalizeList cs p.1
    (q.1, p.2 ++ q.2)
  | .strRaw s :: cs, st =>
    let a := alloc (createVNode none (.str s) none none) st
    let q := normalizeList cs a.1
    (q.1, a.2 :: q.2)
  | .numRaw n :: cs, st =>
    let a := alloc (createVNode none (.str (toString n)) none none) st
    let q := normalizeList cs a.1
    (q.1, a.2 :: q.2)
  | .nodeRaw id :: cs, st =>
    match st.get? id with
    | some r =>
      let a := alloc (createVNode r.vtype r.props r.key r.ref) st
      let q := normalizeList cs a.1
      (q.1, a.2 :: q.2)
    | none => normalizeList cs st
  | .junkRaw :: cs, st => normalizeList cs st

/-! ## Child matching (children.js, phase B) -/

/-- The two fields of a child vnode that the matcher consults: `key`
and `type` (`none` is the text sentinel). -/
structure ChildMeta where
  key : Option JSVal
  vtype : Option VType
deriving DecidableEq, Repr

/-- The `oldChildrenByKey` map of children.js: built by one forward
pass over the old children, `map.set(key, i)` for every keyed old
child, so a duplicated key keeps the last index. -/
def oldChildrenByKey (old : List (Option ChildMeta)) (k : JSVal) : Option Nat :=
  (List.range old.length).foldl (fun acc i =>
    match old.get? i with
    | some (some c) =>
      match c.key with
      | some kk => if kk = k then some i else acc
      | none => acc
    | _ => acc) none

/-- The condition tested at index `j` of the forward scan for an
unkeyed match: `!matched[j] && candidate && candidate.key == null &&
candidate.type === newChild.type`. -/
def unkeyedCandidateAt (old : List (Option ChildMeta)) (matched : List Bool)
    (t : Option VType) (j : Nat) : Bool :=
  decide (matched.get? j = some false) &&
    (match old.get? j with
     | some (some cand) => decide (cand.key = none) && decide (cand.vtype = t)
     | _ => false)

/-- One step of the forward scan loop of children.js, with the number
of remaining indices up to `oldChildrenLength` made explicit so that
the recursion is structural: test index `j`, then move to `j + 1`. -/
def scanLoop (old : List (Option ChildMeta)) (matched : List Bool)
    (t : Option VType) : Nat → Nat → Option Nat
  | 0, _ => none
  | fuel + 1, j =>
    if unkeyedCandidateAt old matched t j then some j
    else scanLoop old matched t fuel (j + 1)

/-- The forward scan of children.js ("If no match at position, search
for any unmatched unkeyed match of same type"): iterate `j` from 0 to
`oldChildrenLength - 1` and return the first index satisfying
`unkeyedCandidateAt`. -/
def scanForUnkeyed (old : List (Option ChildMeta)) (matched : List Bool)
    (t : Option VType) : Option Nat :=
  scanLoop old matched t old.length 0

/-- The positional attempt for an unkeyed new child at index `i`:
`i < oldChildrenLength && !matched[i]`, then `candidate &&
candidate.key == null && candidate.type === newChild.type`. -/
def positionalCandidate (old : List (Option ChildMeta)) (matched : List Bool)
    (i : Nat) (t : Option VType) : Option Nat :=
  if i < old.length ∧ matched.get? i = some false then
    match old.get? i with
    | some (some cand) => if cand.key = none ∧ cand.vtype = t then some i else none
    | _ => none
  else none

/-- The per-child matching of children.js phase B: `null` new children
are skipped; a keyed child consults `oldChildrenByKey` (candidate must
be unmatched and share `type`); an unkeyed child first tries the same
positional index, then the forward scan. -/
def findMatchFor (old : List (Option ChildMeta)) (matched : List Bool) (i : Nat) :
    Option ChildMeta → Option Nat
  | none => none
  | some c =>
    match c.key with
    | some k =>
      match oldChildrenByKey old k with
      | some ki =>
        if matched.get? ki = some false then
          match old.get? ki with
          | some (some cand) => if cand.vtype = c.vtype then some ki else none
          | _ => none
        else none
      | none => none
    | none =>
      match positionalCandidate old matched i c.vtype with
      | some j => some j
      | none => scanForUnkeyed old matched c.vtype

/-- The phase-B loop over the new children, left to right, threading
the `matched` flags; returns the final flags and, for each new child,
the index of the old child it reuses (or `none`). -/
def matchLoop (old : List (Option ChildMeta)) :
    List (Option ChildMeta) → Nat → List Bool → List Bool × List (Option Nat)
  | [], _, matched => (matched, [])
  | nc :: rest, i, matched =>
    let mi := findMatchFor old matched i nc
    let matched1 := match mi with
      | some j => matched.set j true
      | none => matched
    let p := matchLoop old rest (i + 1) matched1
    (p.1, mi :: p.2)

/-- `matchChildren old new` : the assignment of old-child indices to
new children computed by phase B, starting from all-unmatched flags. -/
def matchChildren (old newKids : List (Option ChildMeta)) : List (Option Nat) :=
  (matchLoop old newKids 0 (List.replicate old.length false)).2

/-! ## diffChildren and the render entry (children.js, render.js) -/

/-- The matcher's view of a stored vnode: its `key` and `type`. -/
def metaOf (r : VNodeRec) : ChildMeta := { key := r.key, vtype := r.vtype }

/-- The outcome of `diffChildren` that the claims consult: the grown
store, the normalized new child references (stored on the parent
vnode's `_children`), and the old children unmounted (in order). -/
structure DiffChildrenOut where
  store : Store
  newChildIds : List Nat
  unmountedIds : List Nat
deriving Repr

/-- `diffChildren` from children.js, restricted to normalization,
matching and unmounting: normalize the render result; if no new
children remain, unmount every old child; otherwise run phase B and
unmount the unmatched old children (phase D). -/
def diffChildrenModel (st : Store) (renderResult : List RawChild)
    (oldKids : List (Option Nat)) : DiffChildrenOut :=
  let p := normalizeList renderResult st
  let st1 := p.1
  let normalized := p.2
  if normalized.length = 0 then
    { store := st1, newChildIds := [], unmountedIds := oldKids.filterMap id }
  else
    let oldMetas := oldKids.map (fun oi => oi.bind (fun i => (st1.get? i).map metaOf))
    let newMetas := normalized.map (fun i => (st1.get? i).map metaOf)
    let matched := (matchLoop oldMetas newMetas 0 (List.replicate oldMetas.length false)).1
    { store := st1, newChildIds := normalized,
      unmountedIds := (List.range oldKids.length).filterMap (fun i =>
        if matched.get? i = some false then (oldKids.get? i).bind id else none) }

/-- The root vnode cached on a container (`container._children` in
render.js): the `children` passed in its props and its `_children`
slot from its diff. -/
structure RootVNodeModel where
  propsChildren : Option RawChild
  kids : List (Option Nat)

/-- A render container: `cachedRoot` models the `_children` expando
through which render.js caches the previous root vnode. -/
structure Container where
  cachedRoot : Option RootVNodeModel

/-- The outcome of `render(vnode, container)`. -/
structure RenderOut where
  store : Store
  container : Container
  normalizedChildren : List Nat
  unmounted : List Nat

/-- The render-result normalization of `diffComponent`:
`rendered == null ? [] : Array.isArray(rendered) ? rendered :
[rendered]`. -/
def childArrayOf : Option RawChild → List RawChild
  | none => []
  | some (.arrRaw xs) => xs
  | some r => [r]

/-- `render(vnode, container)` from render.js: read the cached previous
root, build a new root `createVNode(Fragment, { children: vnode },
null, null)`, cache the new root on the container, and diff.  The root
is a Fragment component, so its render result is `props.children`; the
resulting child array is reconciled against the previous root's
`_children`. -/
def renderModel (tree : Option RawChild) (st : Store) (c : Container) : RenderOut :=
  let oldKids := match c.cachedRoot with
    | some r => r.kids
    | none => []
  let rendered := tree
  let childArray := childArrayOf rendered
  let out := diffChildrenModel st childArray oldKids
  let newRoot : RootVNodeModel :=
    { propsChildren := tree, kids := out.newChildIds.map some }
  { store := out.store,
    container := { cachedRoot := some newRoot },
    normalizedChildren := out.newChildIds,
    unmounted := out.unmountedIds }

/-! ## Portal container validation (diff.js diffPortal) and
contract-violation signalling -/

/-- How a contract violation is signalled to the host: a thrown
`Error`, a diagnostic log (`console.error` / `console.warn`), or
normal continuation. -/
inductive ViolationSignal where
  | thrownError : String → ViolationSignal
  | diagnosticLog : String → ViolationSignal
  | proceed : ViolationSignal
deriving DecidableEq, Repr

/-- The guard at the top of `useContext` in hooks.js: with no current
component it throws `new Error('useContext must be called during
render')`. -/
def useContextGuard (currentComp : Option Nat) : ViolationSignal :=
  match currentComp with
  | none => .thrownError "useContext must be called during render"
  | some _ => .proceed

/-- The container validation of `diffPortal` in diff.js:
`if (!newContainer || !(newContainer instanceof Element))` log
`console.error('createPortal: container must be a DOM element')` and
return.  `none` is a missing container; `some b` is a present value
with `b` recording `instanceof Element`. -/
def diffPortalContainerCheck (container : Option Bool) : ViolationSignal :=
  match container with
  | none => .diagnosticLog "createPortal: container must be a DOM element"
  | some isElem =>
    if isElem then .proceed
    else .diagnosticLog "createPortal: container must be a DOM element"

/-! ## Scheduler lemmas -/

theorem enqueueRender_mem_self (c : Nat) (s : SchedState) :
    c ∈ (enqueueRender c s).renderQueue := by
  unfold enqueueRender
  split
  · exact List.mem_of_elem_eq_true (by assumption)
  · simp

theorem enqueueRender_mem_mono (a c : Nat) (s : SchedState)
    (h : a ∈ s.renderQueue) : a ∈ (enqueueRender c s).renderQueue := by
  unfold enqueueRender
  split
  · exact h
  · simp [h]

theorem enqueueRender_nodup (c : Nat) (s : SchedState)
    (h : s.renderQueue.Nodup) : (enqueueRender c s).renderQueue.Nodup := by
  unfold enqueueRender
  split
  · exact h
  · have hc : c ∉ s.renderQueue := by
      intro hmem
      have : s.renderQueue.contains c = true := List.elem_eq_true_of_mem hmem
      simp_all
    simpa [List.nodup_append] using ⟨h, hc⟩

/-- The invariant the scheduler maintains from the idle state through
any sequence of `enqueueRender` calls: no duplicate queue entries, the
`scheduled` flag set exactly when the queue is nonempty, and exactly
one drain microtask queued when the queue is nonempty. -/
def schedInv (s : SchedState) : Prop :=
  s.renderQueue.Nodup ∧ (s.scheduled = true ↔ s.renderQueue ≠ []) ∧
    s.drainsQueued = (if s.renderQueue = [] then 0 else 1)

theorem schedInv_idle : schedInv idleSched := by
  refine ⟨List.nodup_nil, by simp [idleSched], by simp [idleSched]⟩

theorem schedInv_enqueue (c : Nat) (s : SchedState) (h : schedInv s) :
    schedInv (enqueueRender c s) := by
  obtain ⟨hnd, hsch, hdr⟩ := h
  unfold enqueueRender
  split
  · exact ⟨hnd, hsch, hdr⟩
  · rename_i hnc
    have hc : c ∉ s.renderQueue := by
      intro hmem
      exact hnc (List.elem_eq_true_of_mem hmem)
    refine ⟨by simpa [List.nodup_append] using ⟨hnd, hc⟩, by simp, ?_⟩
    by_cases hs : s.scheduled = true
    · have hq : s.renderQueue ≠ [] := hsch.mp hs
      simp only [hs, if_true]
      rw [hdr, if_neg hq]
      simp
    · have hq : s.renderQueue = [] := by
        by_contra hne
        exact hs (hsch.mpr hne)
      simp only [Bool.not_eq_true] at hs
      simp only [hs]
      rw [hdr, if_pos hq]
      simp

theorem sortInsert_perm (le : Nat → Nat → Bool) (x : Nat) (l : List Nat) :
    List.Perm (sortInsert le x l) (x :: l) := by
  induction l with
  | nil => simp [sortInsert]
  | cons y ys ih =>
    unfold sortInsert
    split
    · exact List.Perm.trans (ih.cons y) (List.Perm.swap x y ys)
    · exact List.Perm.refl _

theorem stableSort_perm (le : Nat → Nat → Bool) (l : List Nat) :
    List.Perm (stableSort le l) l := by
  induction l with
  | nil => simp [stableSort]
  | cons y ys ih =>
    unfold stableSort at *
    exact ((sortInsert_perm le y _).trans (ih.cons y))

/-- Folding a batch of `enqueueRender` calls over the scheduler. -/
def enqueueAll (ops : List Nat) (s : SchedState) : SchedState :=
  ops.foldl (fun st x => enqueueRender x st) s

theorem schedInv_enqueueAll (ops : List Nat) (s : SchedState) (h : schedInv s) :
    schedInv (enqueueAll ops s) := by
  induction ops generalizing s with
  | nil => exact h
  | cons o os ih => exact ih _ (schedInv_enqueue o s h)

theorem enqueueAll_mem (ops : List Nat) (c : Nat) (s : SchedState)
    (h : c ∈ ops ∨ c ∈ s.renderQueue) : c ∈ (enqueueAll ops s).renderQueue := by
  induction ops generalizing s with
  | nil =>
    rcases h with h | h
    · exact absurd h (List.not_mem_nil c)
    · exact h
  | cons o os ih =>
    rcases h with h | h
    · rcases List.mem_cons.mp h with rfl | hmem
      · exact ih _ (Or.inr (enqueueRender_mem_self c s))
      · exact ih _ (Or.inl hmem)
    · exact ih _ (Or.inr (enqueueRender_mem_mono c o s h))

/-- C9: any number N >= 1 of state updates dispatched synchronously in
the same turn — modelled as a batch of `enqueueRender` calls containing
the component, starting from the idle scheduler — leaves the component
in the render queue exactly once, schedules exactly one drain
microtask, and the drain re-renders the component exactly once
(provided its vnode is still non-null). -/
theorem batched_updates_single_render (ops : List Nat) (c : Nat)
    (depth : Nat → Option Nat) (hc : c ∈ ops) (halive : (depth c).isSome = true) :
    (enqueueAll ops idleSched).renderQueue.count c = 1 ∧
    (enqueueAll ops idleSched).drainsQueued = 1 ∧
    (processRenderQueue depth (enqueueAll ops idleSched)).2.count c = 1 := by
  obtain ⟨hnd, hsch, hdr⟩ := schedInv_enqueueAll ops idleSched schedInv_idle
  have hmem : c ∈ (enqueueAll ops idleSched).renderQueue :=
    enqueueAll_mem ops c idleSched (Or.inl hc)
  have hcount : (enqueueAll ops idleSched).renderQueue.count c = 1 :=
    List.count_eq_one_of_mem hnd hmem
  have hne : (enqueueAll ops idleSched).renderQueue ≠ [] := by
    intro h
    rw [h] at hmem
    exact (List.not_mem_nil c) hmem
  refine ⟨hcount, by rw [hdr, if_neg hne], ?_⟩
  unfold processRenderQueue
  simp only
  have h1 : List.count c
      (List.filter (fun x => (depth x).isSome)
        (stableSort (fun a b => decide (depthKey depth a ≤ depthKey depth b))
          (enqueueAll ops idleSched).renderQueue)) =
      List.count c
        (stableSort (fun a b => decide (depthKey depth a ≤ depthKey depth b))
          (enqueueAll ops idleSched).renderQueue) :=
    List.count_filter halive
  have h2 : List.count c
      (stableSort (fun a b => decide (depthKey depth a ≤ depthKey depth b))
        (enqueueAll ops idleSched).renderQueue) =
      List.count c (enqueueAll ops idleSched).renderQueue :=
    (stableSort_perm _ _).count_eq c
  exact h1.trans (h2.trans hcount)

/-- Witness for `batched_updates_single_render`: three updates in one
turn, two of them to component 7, with every vnode alive. -/
theorem batched_updates_single_render_witness :
    7 ∈ [7, 7, 9] ∧ ((fun _ : Nat => some 0) 7).isSome = true ∧
    ((enqueueAll [7, 7, 9] idleSched).renderQueue.count 7 = 1 ∧
     (enqueueAll [7, 7, 9] idleSched).drainsQueued = 1 ∧
     (processRenderQueue (fun _ => some 0) (enqueueAll [7, 7, 9] idleSched)).2.count 7 = 1) :=
  ⟨by decide, by decide,
    batched_updates_single_render [7, 7, 9] 7 (fun _ => some 0) (by decide) (by decide)⟩

/-! ## Context notification lemmas -/

theorem notify_subs_filter (alive : Nat → Bool) (subs : List Nat) (s : SchedState) :
    (notifyContextSubscribers alive subs s).1 = subs.filter (fun c => alive c) := by
  induction subs generalizing s with
  | nil => rfl
  | cons c rest ih =>
    unfold notifyContextSubscribers
    by_cases hc : alive c = true
    · simp only [hc, if_true, List.filter_cons, ih]
    · simp only [Bool.not_eq_true] at hc
      simp [hc, ih]

theorem notify_queue_mono (alive : Nat → Bool) (subs : List Nat) (s : SchedState)
    (a : Nat) (h : a ∈ s.renderQueue) :
    a ∈ (notifyContextSubscribers alive subs s).2.renderQueue := by
  induction subs generalizing s with
  | nil => exact h
  | cons c rest ih =>
    unfold notifyContextSubscribers
    by_cases hc : alive c = true
    · simp only [hc, if_true]
      exact ih _ (enqueueRender_mem_mono a c s h)
    · simp only [Bool.not_eq_true] at hc
      simp only [hc, Bool.false_eq_true, if_false]
      exact ih _ h

theorem notify_enqueues_alive (alive : Nat → Bool) (subs : List Nat) (s : SchedState)
    (c : Nat) (hmem : c ∈ subs) (hal : alive c = true) :
    c ∈ (notifyContextSubscribers alive subs s).2.renderQueue := by
  induction subs generalizing s with
  | nil => exact absurd hmem (List.not_mem_nil c)
  | cons d rest ih =>
    unfold notifyContextSubscribers
    rcases List.mem_cons.mp hmem with rfl | hrest
    · simp only [hal, if_true]
      exact notify_queue_mono alive rest _ c (enqueueRender_mem_self c s)
    · by_cases hd : alive d = true
      · simp only [hd, if_true]
        exact ih _ hrest
      · simp only [Bool.not_eq_true] at hd
        simp only [hd, Bool.false_eq_true, if_false]
        exact ih _ hrest

/-- C2: when a Provider vnode is re-diffed with a `props.value` that
differs from the stored one under Object.is, every subscriber whose
component still has a non-null vnode ends up in the scheduler's render
queue, and subscribers whose component has a null vnode are dropped
from the subscription set (which afterwards is exactly the alive
subscribers, in order). -/
theorem provider_value_change_notifies_subscribers
    (oldValue newValue : JSVal) (alive : Nat → Bool) (subs : List Nat)
    (s : SchedState) (hne : ObjectIs oldValue newValue = false) :
    (diffProviderNotify oldValue newValue alive subs s).1 =
      subs.filter (fun c => alive c) ∧
    ∀ c ∈ subs, alive c = true →
      c ∈ (diffProviderNotify oldValue newValue alive subs s).2.renderQueue := by
  unfold diffProviderNotify
  rw [hne]
  simp only [Bool.false_eq_true, if_false]
  exact ⟨notify_subs_filter alive subs s,
    fun c hc hal => notify_enqueues_alive alive subs s c hc hal⟩

/-- Witness for `provider_value_change_notifies_subscribers`: a value
change from 0 to 1, subscribers 3 (alive) and 4 (unmounted). -/
theorem provider_value_change_notifies_subscribers_witness :
    ObjectIs (JSVal.num 0) (JSVal.num 1) = false ∧
    ((diffProviderNotify (JSVal.num 0) (JSVal.num 1) (fun c => c = 3) [3, 4] idleSched).1 =
      [3, 4].filter (fun c => c = 3) ∧
     ∀ c ∈ [3, 4], (fun c => decide (c = 3)) c = true →
       c ∈ (diffProviderNotify (JSVal.num 0) (JSVal.num 1) (fun c => c = 3)
         [3, 4] idleSched).2.renderQueue) :=
  ⟨by decide,
    provider_value_change_notifies_subscribers (JSVal.num 0) (JSVal.num 1)
      (fun c => c = 3) [3, 4] idleSched (by decide)⟩

/-! ## findProvider and useContext lemmas -/

theorem findProvider_eq_find? (ctxId : Nat) (chain : List AncVNode) :
    findProvider ctxId chain =
      chain.find? (fun a => isContextProviderFor ctxId a.vtype) := by
  induction chain with
  | nil => rfl
  | cons v rest ih =>
    unfold findProvider
    rw [List.find?_cons]
    by_cases hv : isContextProviderFor ctxId v.vtype = true
    · simp [hv]
    · simp only [Bool.not_eq_true] at hv
      simp [hv, ih]

theorem setAdd_mem_self (x : Nat) (s : List Nat) : x ∈ setAdd x s := by
  unfold setAdd
  split
  · assumption
  · simp

/-- C1: `useContext` returns the `_contextValue` of the nearest
Provider for the context along the component's `_parent` chain and
subscribes to exactly that Provider; with no Provider in the chain it
returns the context's default value.  The (spec-modelled) Provider diff
stores `props.value` as `_contextValue`, so the value returned is the
`props.value` of the most recent diff of the nearest Provider; and
`subscribeToProvider` records the subscription in both the provider's
and the component's subscription sets. -/
theorem useContext_nearest_provider_value (ctx : Context) (comp : Nat)
    (chain : List AncVNode) (p : AncVNode) (v : JSVal)
    (providerId compId : Nat) (st : SubState) :
    (useContext ctx (some comp) (some chain) =
      match chain.find? (fun a => isContextProviderFor ctx.id a.vtype) with
      | some q => UseContextResult.value q.contextValue (some q.id)
      | none => UseContextResult.value ctx.defaultValue none) ∧
    (diffProviderStoreValue p v).contextValue = v ∧
    compId ∈ (subscribeToProvider providerId compId st).providerSubs providerId ∧
    providerId ∈ (subscribeToProvider providerId compId st).componentSubs compId := by
  refine ⟨?_, rfl, ?_, ?_⟩
  · simp only [useContext, findProvider_eq_find?]
  · unfold subscribeToProvider
    simp only [if_pos rfl]
    exact setAdd_mem_self compId _
  · unfold subscribeToProvider
    simp only [if_pos rfl]
    exact setAdd_mem_self providerId _

/-! ## Commit-order and cleanup-order lemmas -/

theorem get?_append_cons (pre : List Slot) (x : Slot) (rest : List Slot) :
    (pre ++ x :: rest).get? pre.length = some x := by
  induction pre with
  | nil => rfl
  | cons h t ih => simpa using ih

theorem set_append_cons (pre : List Slot) (x y : Slot) (rest : List Slot) :
    (pre ++ x :: rest).set pre.length y = pre ++ y :: rest := by
  induction pre with
  | nil => rfl
  | cons h t ih => simp [List.set, ih]

theorem commitPendingEffects_range (cleanupOf : Nat → Option Nat) (effects : List Nat)
    (pre : List Slot) :
    commitPendingEffects cleanupOf (List.range' pre.length effects.length)
        (pre ++ effects.map (fun e => Slot.mk (some e) none)) =
      (pre ++ effects.map (fun e => Slot.mk (some e) (cleanupOf e)),
       effects.map EffEvent.effectRun) := by
  induction effects generalizing pre with
  | nil => simp [commitPendingEffects]
  | cons e es ih =>
    have hrange : List.range' pre.length (e :: es).length =
        pre.length :: List.range' (pre.length + 1) es.length := rfl
    rw [hrange]
    unfold commitPendingEffects
    have hslot : (pre ++ (e :: es).map (fun e => Slot.mk (some e) none)).get? pre.length =
        some (Slot.mk (some e) none) := by
      simpa using get?_append_cons pre (Slot.mk (some e) none) (es.map (fun x => Slot.mk (some x) none))
    unfold commitSlot
    rw [hslot]
    simp only [List.map_cons, List.cons_append]
    have hset : (pre ++ Slot.mk (some e) none :: es.map (fun x => Slot.mk (some x) none)).set
        pre.length (Slot.mk (some e) (cleanupOf e)) =
        pre ++ Slot.mk (some e) (cleanupOf e) :: es.map (fun x => Slot.mk (some x) none) :=
      set_append_cons pre _ _ _
    rw [hset]
    have hlen : pre.length + 1 = (pre ++ [Slot.mk (some e) (cleanupOf e)]).length := by
      simp
    have hassoc : pre ++ Slot.mk (some e) (cleanupOf e) :: es.map (fun x => Slot.mk (some x) none) =
        (pre ++ [Slot.mk (some e) (cleanupOf e)]) ++ es.map (fun x => Slot.mk (some x) none) := by
      simp
    rw [hassoc, hlen, ih]
    simp

/-- C3 counterexample: a component with two effect slots.  The commit
pipeline runs the effects in hook-list order (slot 0 then slot 1,
storing cleanups 10 and 11); at unmount `runCleanups` invokes the
cleanups in that same order, not in the reverse order the claim
requires. -/
theorem unmount_cleanup_order_not_reversed_cex :
    (commitPendingEffects (fun e => if e = 0 then some 10 else some 11) [0, 1]
        [Slot.mk (some 0) none, Slot.mk (some 1) none]).2 =
      [EffEvent.effectRun 0, EffEvent.effectRun 1] ∧
    runCleanups (commitPendingEffects (fun e => if e = 0 then some 10 else some 11) [0, 1]
        [Slot.mk (some 0) none, Slot.mk (some 1) none]).1 =
      [EffEvent.cleanupRun 10, EffEvent.cleanupRun 11,
       EffEvent.removeContextSubscriptions] ∧
    [EffEvent.cleanupRun 10, EffEvent.cleanupRun 11,
       EffEvent.removeContextSubscriptions] ≠
      [EffEvent.cleanupRun 11, EffEvent.cleanupRun 10,
       EffEvent.removeContextSubscriptions] := by
  refine ⟨by decide, by decide, by decide⟩

/-- C3 (amended): when a component vnode is unmounted, every non-null
cleanup thunk stored in its hook list is invoked, in the SAME order in
which their effects were committed (the hook-list order), and only
after the cleanups run are the component's context subscriptions
removed (the removal is the last event). -/
theorem unmount_cleanups_run_in_commit_order (effects : List Nat)
    (cleanupOf : Nat → Option Nat) :
    (commitPendingEffects cleanupOf (List.range effects.length)
        (effects.map (fun e => Slot.mk (some e) none))).2 =
      effects.map EffEvent.effectRun ∧
    runCleanups (commitPendingEffects cleanupOf (List.range effects.length)
        (effects.map (fun e => Slot.mk (some e) none))).1 =
      (effects.filterMap cleanupOf).map EffEvent.cleanupRun ++
        [EffEvent.removeContextSubscriptions] := by
  have h := commitPendingEffects_range cleanupOf effects []
  simp only [List.nil_append, List.length_nil] at h
  rw [List.range_eq_range']
  rw [h]
  refine ⟨rfl, ?_⟩
  unfold runCleanups
  congr 1
  congr 1
  rw [List.filterMap_map]
  rfl

/-! ## C4: event-prop classification -/

/-- Discriminator: the action is the delegated-event path. -/
def isEventAction : PropAction → Bool
  | .eventUpdate _ => true
  | _ => false

/-- C4 counterexample: the prop name `once` does not begin with `on`
plus an uppercase letter, yet `setProperty` classifies it as an event
listener (deriving the event name `ce` by lower-casing the remainder),
instead of writing it as an ordinary attribute. -/
theorem event_prop_classification_cex :
    specIsEventListenerName "once" = false ∧
    isEventAction (setProperty "once" false) = true ∧
    setProperty "once" false = PropAction.eventUpdate (delegatedEventName "once") := by
  refine ⟨by decide, rfl, rfl⟩

/-- C4 (amended): `setProperty` classifies a prop name as an event
listener exactly when its first two characters are `o` and `n` (no
uppercase requirement on what follows), and for such a name the
delegated event name is the remainder after `on`, lower-cased; names
not of that shape take the ordinary attribute/property paths. -/
theorem setProperty_event_classification (name : String) (svgNamespace : Bool) :
    setProperty name svgNamespace = PropAction.eventUpdate (delegatedEventName name) ↔
      (name.data.get? 0 = some 'o' ∧ name.data.get? 1 = some 'n') := by
  unfold setProperty
  split_ifs with h1 h2 h3 h4 h5 h6 h7
  · subst h1
    exact iff_of_false (by simp) (by decide)
  · subst h2
    exact iff_of_false (by simp) (by decide)
  · exact iff_of_true rfl h3
  · exact iff_of_false (by simp) h3
  · exact iff_of_false (by simp) h3
  · exact iff_of_false (by simp) h3
  · exact iff_of_false (by simp) h3
  · exact iff_of_false (by simp) h3

/-! ## C5: render(null, container) -/

/-- A container holding a previously rendered root with two live
children. -/
def exampleContainer : Container :=
  Container.mk (some (RootVNodeModel.mk (some (RawChild.strRaw "x")) [some 0, some 1]))

/-- C5 counterexample: after `render(null, container)` the container
still caches a root vnode — render.js re-assigns
`container._children = newVNode` unconditionally, so the cache holds
the fresh empty root instead of being cleared. -/
theorem render_null_keeps_cached_root_cex :
    (renderModel none [] exampleContainer).container.cachedRoot =
      some (RootVNodeModel.mk none []) ∧
    (some (RootVNodeModel.mk none []) : Option RootVNodeModel) ≠ none := by
  refine ⟨?_, by simp⟩
  simp [renderModel, diffChildrenModel, normalizeList, childArrayOf, exampleContainer]

/-- C5 (amended): `render(null, container)` normalizes the new children
to the empty sequence and unmounts every existing child of the prior
root, and afterwards the container caches the NEW root vnode (with
empty children), replacing the prior root rather than clearing the
cache. -/
theorem render_null_unmounts_all_and_recaches (st : Store) (c : Container) :
    (renderModel none st c).normalizedChildren = [] ∧
    (renderModel none st c).unmounted =
      (match c.cachedRoot with
       | some r => r.kids.filterMap id
       | none => []) ∧
    (renderModel none st c).container.cachedRoot =
      some (RootVNodeModel.mk none []) := by
  obtain ⟨cr⟩ := c
  cases cr with
  | none =>
    refine ⟨?_, ?_, ?_⟩ <;>
      simp [renderModel, diffChildrenModel, normalizeList, childArrayOf]
  | some r =>
    refine ⟨?_, ?_, ?_⟩ <;>
      simp [renderModel, diffChildrenModel, normalizeList, childArrayOf]

/-! ## C6: contract-violation signalling -/

/-- Discriminator: the signal is a thrown error. -/
def signalIsThrown : ViolationSignal → Bool
  | .thrownError _ => true
  | _ => false

/-- Discriminator: the signal is a diagnostic log. -/
def signalIsLog : ViolationSignal → Bool
  | .diagnosticLog _ => true
  | _ => false

/-- C6 counterexample: a hook called outside a component render
(useContext with no current component) throws an Error instead of
being reported via a diagnostic log. -/
theorem hook_outside_render_throws_cex :
    useContextGuard none =
      ViolationSignal.thrownError "useContext must be called during render" ∧
    signalIsThrown (useContextGuard none) = true ∧
    signalIsLog (useContextGuard none) = false ∧
    useContext (Context.mk 0 JSVal.undef) none none =
      UseContextResult.thrown "useContext must be called during render" := by
  exact ⟨rfl, rfl, rfl, rfl⟩

/-- C6 (amended): `createPortal` with a missing or non-element
container is reported via a diagnostic log (console.error) and the
diff returns without recovery, but a hook called outside a component
render (useContext) is signalled by a thrown Error, not by a log. -/
theorem contract_violation_signals :
    diffPortalContainerCheck none =
      ViolationSignal.diagnosticLog "createPortal: container must be a DOM element" ∧
    diffPortalContainerCheck (some false) =
      ViolationSignal.diagnosticLog "createPortal: container must be a DOM element" ∧
    diffPortalContainerCheck (some true) = ViolationSignal.proceed ∧
    useContextGuard none =
      ViolationSignal.thrownError "useContext must be called during render" := by
  exact ⟨rfl, rfl, rfl, rfl⟩

/-! ## C7: the effect dependency law at the failing input -/

/-- C7: the code evaluated at the failing input.  A component has one
`useEffect(callback 0, [])` slot.  It mounts, and a second render of
the same component happens in the same turn, before the deferred
(after-paint) effect flush.  On both renders `argsChanged(undefined,
[])` is true (the accepted deps are only updated when the effect runs),
so the slot is pushed onto `_pendingEffects` twice, and the flush then
runs the effect twice and the freshly stored cleanup once — although
the dependency list never changed, so the dependency law of the claim
(and of hooks.js's own doc comment for deps `[]`: "run only on
mount/unmount") requires exactly one run and no cleanup. -/
theorem effect_runs_twice_when_rerender_precedes_flush :
    (runPendingEffectsModel (fun _ => some 5)
        (useEffect 0 (some []) (useEffect 0 (some [])
          (EffectHooks.mk freshHookState 0)))).2 =
      [EffEvent.effectRun 0, EffEvent.cleanupRun 5, EffEvent.effectRun 0] ∧
    (runPendingEffectsModel (fun _ => some 5)
        (useEffect 0 (some []) (useEffect 0 (some [])
          (EffectHooks.mk freshHookState 0)))).2.count (EffEvent.effectRun 0) = 2 := by
  refine ⟨by decide, by decide⟩

/-! ## C8: unkeyed matching -/

theorem scanLoop_eq_find? (old : List (Option ChildMeta)) (matched : List Bool)
    (t : Option VType) (fuel : Nat) :
    ∀ j, scanLoop old matched t fuel j =
      (List.range' j fuel).find? (fun k => unkeyedCandidateAt old matched t k) := by
  induction fuel with
  | zero => intro j; rfl
  | succ m ih =>
    intro j
    have hr : List.range' j (m + 1) = j :: List.range' (j + 1) m := rfl
    rw [hr, List.find?_cons]
    unfold scanLoop
    by_cases hc : unkeyedCandidateAt old matched t j = true
    · simp [hc]
    · simp only [Bool.not_eq_true] at hc
      simp [hc, ih (j + 1)]

theorem scanForUnkeyed_eq_find? (old : List (Option ChildMeta)) (matched : List Bool)
    (t : Option VType) :
    scanForUnkeyed old matched t =
      (List.range old.length).find? (fun k => unkeyedCandidateAt old matched t k) := by
  unfold scanForUnkeyed
  rw [scanLoop_eq_find? old matched t old.length 0, List.range_eq_range']

/-- C8 counterexample: the old child at position 0 carries a key and
has the same type `div` as the unkeyed new child at position 0, yet
the matcher reuses nothing — the positional match also requires the
old child to be unkeyed (and unmatched), so the assignment is `none`
and the old child is left for unmounting, not reused. -/
theorem unkeyed_positional_reuse_cex :
    matchChildren [some (ChildMeta.mk (some (JSVal.str "k")) (some (VType.tag "div")))]
        [some (ChildMeta.mk none (some (VType.tag "div")))] = [none] ∧
    ([none] : List (Option Nat)) ≠ [some 0] := by
  refine ⟨by decide, by decide⟩

/-- C8 (amended): for an unkeyed new child processed at position `i`
with matched-flags `matched`: if the old child at position `i` exists,
is unkeyed, has the same type, and is not already matched, it is
reused; and when the positional attempt fails, the matcher scans the
old children forward and reuses the FIRST unmatched unkeyed old child
of the same type (`List.find?` over the index range). -/
theorem unkeyed_match_characterization (old : List (Option ChildMeta))
    (matched : List Bool) (i : Nat) (c : ChildMeta) (hkey : c.key = none) :
    (∀ cand, i < old.length → matched.get? i = some false →
      old.get? i = some (some cand) → cand.key = none → cand.vtype = c.vtype →
      findMatchFor old matched i (some c) = some i) ∧
    (positionalCandidate old matched i c.vtype = none →
      findMatchFor old matched i (some c) =
        (List.range old.length).find?
          (fun k => unkeyedCandidateAt old matched c.vtype k)) := by
  obtain ⟨ck, ct⟩ := c
  simp only at hkey
  subst hkey
  constructor
  · intro cand hi hm ho hck hct
    have hpos : positionalCandidate old matched i ct = some i := by
      unfold positionalCandidate
      rw [if_pos ⟨hi, hm⟩, ho]
      simp only at hct
      simp [hck, hct]
    unfold findMatchFor
    simp only [hpos]
  · intro hpos
    unfold findMatchFor
    simp only [hpos]
    exact scanForUnkeyed_eq_find? old matched ct

/-- Witness for `unkeyed_match_characterization`: one unkeyed `div`
old child, an unkeyed `div` new child at position 0. -/
theorem unkeyed_match_characterization_witness :
    (ChildMeta.mk none (some (VType.tag "div"))).key = none ∧
    ((∀ cand, 0 < ([some (ChildMeta.mk none (some (VType.tag "div")))] :
        List (Option ChildMeta)).length →
      ([false] : List Bool).get? 0 = some false →
      ([some (ChildMeta.mk none (some (VType.tag "div")))] :
        List (Option ChildMeta)).get? 0 = some (some cand) →
      cand.key = none →
      cand.vtype = (ChildMeta.mk none (some (VType.tag "div"))).vtype →
      findMatchFor [some (ChildMeta.mk none (some (VType.tag "div")))] [false] 0
        (some (ChildMeta.mk none (some (VType.tag "div")))) = some 0) ∧
    (positionalCandidate [some (ChildMeta.mk none (some (VType.tag "div")))] [false] 0
        (ChildMeta.mk none (some (VType.tag "div"))).vtype = none →
      findMatchFor [some (ChildMeta.mk none (some (VType.tag "div")))] [false] 0
        (some (ChildMeta.mk none (some (VType.tag "div")))) =
        (List.range ([some (ChildMeta.mk none (some (VType.tag "div")))] :
          List (Option ChildMeta)).length).find?
          (fun k => unkeyedCandidateAt [some (ChildMeta.mk none (some (VType.tag "div")))]
            [false] (ChildMeta.mk none (some (VType.tag "div"))).vtype k))) :=
  ⟨rfl, unkeyed_match_characterization
    [some (ChildMeta.mk none (some (VType.tag "div")))] [false] 0
    (ChildMeta.mk none (some (VType.tag "div"))) rfl⟩

/-! ## C10: normalization clones and never mutates -/

theorem normalizeList_grows (cs : List RawChild) (st : Store) :
    ∃ ext, (normalizeList cs st).1 = st ++ ext := by
  induction cs, st using normalizeList.induct with
  | case1 st => exact ⟨[], by simp [normalizeList]⟩
  | case2 cs st ih => simpa [normalizeList] using ih
  | case3 cs st ih => simpa [normalizeList] using ih
  | case4 b cs st ih => simpa [normalizeList] using ih
  | case5 xs cs st p ih1 ih2 =>
    obtain ⟨e1, h1⟩ := ih1
    obtain ⟨e2, h2⟩ := ih2
    have h1' : (normalizeList xs st).1 = st ++ e1 := h1
    have h2' : (normalizeList cs (normalizeList xs st).1).1 =
        (normalizeList xs st).1 ++ e2 := h2
    refine ⟨e1 ++ e2, ?_⟩
    simp only [normalizeList]
    rw [h2', h1', List.append_assoc]
  | case6 s cs st a ih =>
    obtain ⟨e, h⟩ := ih
    have h' : (normalizeList cs (st ++ [createVNode none (JSVal.str s) none none])).1 =
        (st ++ [createVNode none (JSVal.str s) none none]) ++ e := h
    refine ⟨createVNode none (JSVal.str s) none none :: e, ?_⟩
    simp only [normalizeList, alloc]
    rw [h', List.append_assoc]
    rfl
  | case7 n cs st a ih =>
    obtain ⟨e, h⟩ := ih
    have h' : (normalizeList cs
        (st ++ [createVNode none (JSVal.str (toString n)) none none])).1 =
        (st ++ [createVNode none (JSVal.str (toString n)) none none]) ++ e := h
    refine ⟨createVNode none (JSVal.str (toString n)) none none :: e, ?_⟩
    simp only [normalizeList, alloc]
    rw [h', List.append_assoc]
    rfl
  | case8 nid cs st r hr a ih =>
    obtain ⟨e, h⟩ := ih
    have h' : (normalizeList cs (st ++ [createVNode r.vtype r.props r.key r.ref])).1 =
        (st ++ [createVNode r.vtype r.props r.key r.ref]) ++ e := h
    refine ⟨createVNode r.vtype r.props r.key r.ref :: e, ?_⟩
    simp only [normalizeList, alloc, hr]
    rw [h', List.append_assoc]
    rfl
  | case9 nid cs st hr ih =>
    have hrg : st[nid]? = none := by
      rw [← List.get?_eq_getElem?]
      exact hr
    simpa [normalizeList, hr, hrg] using ih
  | case10 cs st ih => simpa [normalizeList] using ih

theorem normalizeList_get?_frame (cs : List RawChild) (st : Store) (i : Nat)
    (hi : i < st.length) : (normalizeList cs st).1.get? i = st.get? i := by
  obtain ⟨ext, hext⟩ := normalizeList_grows cs st
  rw [hext]
  exact List.get?_append hi

/-- C10: child normalization never mutates a caller-supplied vnode:
every store entry present before normalization is unchanged afterwards
(type, props, key, ref and the reconciliation slots included); a vnode
child is normalized by allocating a FRESH clone via
`createVNode(children.type, children.props, children.key,
children.ref)` (whose reconciliation slots are empty); and the same
vnode appearing at two positions yields two distinct fresh clones while
the original entry is still intact. -/
theorem normalize_clones_and_preserves_originals
    (cs : List RawChild) (st : Store) (i : Nat) (hi : i < st.length)
    (vid : Nat) (r : VNodeRec) (hid : st.get? vid = some r) :
    (normalizeList cs st).1.get? i = st.get? i ∧
    normalizeList [RawChild.nodeRaw vid] st =
      (st ++ [createVNode r.vtype r.props r.key r.ref], [st.length]) ∧
    (normalizeList [RawChild.nodeRaw vid, RawChild.nodeRaw vid] st).2 =
      [st.length, st.length + 1] ∧
    (normalizeList [RawChild.nodeRaw vid, RawChild.nodeRaw vid] st).1.get? vid =
      some r := by
  have hlt : vid < st.length := by
    by_contra hge
    rw [List.get?_eq_none.mpr (Nat.le_of_not_lt hge)] at hid
    cases hid
  have hid2 : (st ++ [createVNode r.vtype r.props r.key r.ref]).get? vid = some r := by
    rw [List.get?_append hlt]
    exact hid
  have hidg : st[vid]? = some r := by
    rw [← List.get?_eq_getElem?]
    exact hid
  have hidg2 : (st ++ [createVNode r.vtype r.props r.key r.ref])[vid]? = some r := by
    rw [← List.get?_eq_getElem?]
    exact hid2
  refine ⟨normalizeList_get?_frame cs st i hi, ?_, ?_, ?_⟩
  · simp [normalizeList, hid, hidg, alloc]
  · simp [normalizeList, hid, hidg, hid2, hidg2, alloc]
  · have hstore : (normalizeList [RawChild.nodeRaw vid, RawChild.nodeRaw vid] st).1 =
        st ++ [createVNode r.vtype r.props r.key r.ref] ++
          [createVNode r.vtype r.props r.key r.ref] := by
      simp [normalizeList, hid, hidg, hid2, hidg2, alloc]
    rw [hstore, List.append_assoc, List.get?_append hlt]
    exact hid

/-- The example vnode used in the witness below. -/
def exVNode : VNodeRec :=
  createVNode (some (VType.tag "div")) (JSVal.obj 0) (some (JSVal.str "k")) (some 3)

/-- Witness for `normalize_clones_and_preserves_originals`: a one-entry
store; the raw children include a string and the stored vnode twice. -/
theorem normalize_clones_and_preserves_originals_witness :
    0 < ([exVNode] : Store).length ∧ ([exVNode] : Store).get? 0 = some exVNode ∧
    ((normalizeList [RawChild.strRaw "t"] [exVNode]).1.get? 0 = ([exVNode] : Store).get? 0 ∧
     normalizeList [RawChild.nodeRaw 0] [exVNode] =
       ([exVNode] ++ [createVNode exVNode.vtype exVNode.props exVNode.key exVNode.ref],
        [([exVNode] : Store).length]) ∧
     (normalizeList [RawChild.nodeRaw 0, RawChild.nodeRaw 0] [exVNode]).2 =
       [([exVNode] : Store).length, ([exVNode] : Store).length + 1] ∧
     (normalizeList [RawChild.nodeRaw 0, RawChild.nodeRaw 0] [exVNode]).1.get? 0 =
       some exVNode) :=
  ⟨by decide, rfl,
    normalize_clones_and_preserves_originals [RawChild.strRaw "t"] [exVNode] 0
      (by decide) 0 exVNode rfl⟩

end WorsePreact
